import Mathlib

/-!
# Typing-game engine: shallow embedding and verification

Shallow embedding of the typing-session engine of `src/main.py`
(class `TypingGame`).  Python strings are modelled as `List Char`,
Python floats (times, accuracies) as `ℚ` (exact arithmetic), the
mutable attributes of the app as fields of a `Session` structure, and
each method as a state-transition function.  Nondeterministic inputs
(`time.time()`, `random.choice(self.paragraphs)`) are passed as
explicit parameters (`now`, `fresh`).  `update_display`,
`set_interval` and other rendering calls have no engine-state effect
and are dropped; timer callbacks are modelled as explicit tick events.
-/

namespace TypingGame

/-- `GameState` enum of `main.py`. -/
inductive GState where
  | userSetup
  | userSelect
  | menu
  | ready
  | inTest
  | complete
  deriving DecidableEq, Repr

/-- The three game modes; the source stores them as the strings
`"30sec"`, `"30word"`, `"unlimited"` in `self.game_mode`. -/
inductive Mode where
  | sec30
  | word30
  | unlimited
  deriving DecidableEq, Repr

/-- The mutable session state of class `TypingGame` (the engine-relevant
reactive attributes; rendering-only fields such as `theme_index`,
`cursor_visible` and `current_paragraph` are omitted). -/
structure Session where
  gameState : GState
  gameMode : Option Mode
  currentLines : List (List Char)
  currentLineIndex : Nat
  targetText : List Char
  typedText : List Char
  history : List (List Char × List Char × Finset Nat)
  linesCompleted : Nat
  totalCharsTyped : Nat
  totalWordsTyped : Nat
  mistakes : Nat
  mistakePositions : Finset Nat
  currentStreak : Nat
  bestStreak : Nat
  startTime : ℚ
  elapsedTime : ℚ
  liveWpm : ℚ
  liveAccuracy : ℚ
  accuracy : ℚ
  countdownRemaining : ℚ
  completed : Bool
  deriving DecidableEq

/-- Python's `str.split()` with no argument: maximal runs of
non-whitespace characters (our texts only use `' '` as whitespace). -/
def splitWords : List Char → List Char → List (List Char)
  | [], [] => []
  | [], acc => [acc.reverse]
  | c :: rest, acc =>
    if c = ' ' then
      if acc = [] then splitWords rest []
      else acc.reverse :: splitWords rest []
    else splitWords rest (c :: acc)

/-- `" ".join(words)`. -/
def joinSpaces : List (List Char) → List Char
  | [] => []
  | [w] => w
  | w :: rest => w ++ ' ' :: joinSpaces rest

/-- The greedy chunking loop of `split_into_lines`: `current_line`
accumulates words (in reverse), flushing whenever it reaches
`max_words_per_line` words, with a final flush of any remainder. -/
def chunkLoop (maxW : Nat) : List (List Char) → List (List Char) → List (List Char)
  | [], cur => if cur = [] then [] else [joinSpaces cur.reverse]
  | w :: rest, cur =>
    let cur' := w :: cur
    if maxW ≤ cur'.length then joinSpaces cur'.reverse :: chunkLoop maxW rest []
    else chunkLoop maxW rest cur'

/-- `TypingGame.split_into_lines(paragraph, max_words_per_line=10)`. -/
def split_into_lines (paragraph : List Char) (maxW : Nat) : List (List Char) :=
  chunkLoop maxW (splitWords paragraph []) []

/-- `len(target_text.split())`, the per-line word count used by
`check_line_completion`. -/
def wordCount (s : List Char) : Nat :=
  (splitWords s []).length

/-- Python `int(q)`: truncation toward zero. -/
def pyTrunc (q : ℚ) : ℤ :=
  if 0 ≤ q then q.floor else -((-q).floor)

/-- Timer-start block of `handle_character`: on the first accepted
keystroke of the test (`typed_text` empty and `start_time == 0.0`)
record `start_time = time.time()` (the `set_interval` calls are
modelled as explicit tick events). -/
def timer_start (now : ℚ) (s : Session) : Session :=
  if s.typedText = [] ∧ s.startTime = 0 then { s with startTime := now } else s

/-- `self.typed_text += char; self.total_chars_typed += 1`. -/
def append_char (c : Char) (s : Session) : Session :=
  { s with typedText := s.typedText ++ [c],
           totalCharsTyped := s.totalCharsTyped + 1 }

/-- Mistake-recording sub-step of the mismatch branch: `if current_pos
not in self.mistake_positions: add it; self.mistakes += 1`. -/
def mistake_record (pos : Nat) (s : Session) : Session :=
  if pos ∈ s.mistakePositions then s
  else { s with mistakePositions := insert pos s.mistakePositions,
                mistakes := s.mistakes + 1 }

/-- Match branch: `self.current_streak += 1; if current_streak >
best_streak: best_streak = current_streak`. -/
def streak_up (s : Session) : Session :=
  if s.bestStreak < s.currentStreak + 1 then
    { s with currentStreak := s.currentStreak + 1, bestStreak := s.currentStreak + 1 }
  else { s with currentStreak := s.currentStreak + 1 }

/-- Mistake/streak tracking block of `handle_character`, run after the
character was appended: `current_pos = len(typed_text) - 1`; on a
mismatch record the position once and reset the streak, on a match
extend the streak and push `best_streak`. -/
def track_mistake (s : Session) : Session :=
  if s.typedText.length - 1 < s.targetText.length ∧
      s.typedText.getD (s.typedText.length - 1) ' ' ≠
        s.targetText.getD (s.typedText.length - 1) ' ' then
    { mistake_record (s.typedText.length - 1) s with currentStreak := 0 }
  else streak_up s

/-- `if self.start_time > 0: self.elapsed_time = time.time() - self.start_time`. -/
def update_elapsed (now : ℚ) (s : Session) : Session :=
  if 0 < s.startTime then { s with elapsedTime := now - s.startTime } else s

/-- `if elapsed_minutes > 0: self.live_wpm = (total_chars_typed / 5) / elapsed_minutes`. -/
def live_wpm_set (s : Session) : Session :=
  if 0 < s.elapsedTime / 60 then
    { s with liveWpm := ((s.totalCharsTyped : ℚ) / 5) / (s.elapsedTime / 60) }
  else s

/-- `if total_chars_typed > 0: live_accuracy = ((chars - mistakes) / chars) * 100`. -/
def live_acc_set (s : Session) : Session :=
  if 0 < s.totalCharsTyped then
    { s with liveAccuracy :=
        (((s.totalCharsTyped : ℚ) - (s.mistakes : ℚ)) / (s.totalCharsTyped : ℚ)) * 100 }
  else s

/-- Live WPM/accuracy block of `handle_character` (guarded by
`self.start_time > 0`). -/
def update_live_stats (s : Session) : Session :=
  if 0 < s.startTime then live_acc_set (live_wpm_set s) else s

/-- The `words`/`minutes` pair of `complete_game`'s mode dispatch; the
source's `else` arm (comment `# unlimited`) is the fallback arm. -/
def wpm_words_minutes (mode : Option Mode) (totalChars : Nat) (elapsed : ℚ) :
    ℚ × ℚ :=
  match mode with
  | some Mode.sec30 => ((totalChars : ℚ) / 5, 1 / 2)
  | some Mode.word30 => (30, elapsed / 60)
  | _ => ((totalChars : ℚ) / 5, if 0 < elapsed then elapsed / 60 else 1)

/-- Final-WPM computation of `complete_game`:
`wpm = int(words / minutes) if minutes > 0 else 0`. -/
def final_wpm (mode : Option Mode) (totalChars : Nat) (elapsed : ℚ) : ℤ :=
  if 0 < (wpm_words_minutes mode totalChars elapsed).2 then
    pyTrunc ((wpm_words_minutes mode totalChars elapsed).1 /
      (wpm_words_minutes mode totalChars elapsed).2)
  else 0

/-- `self.completed = True; self.game_state = GameState.COMPLETE`. -/
def complete_mark (s : Session) : Session :=
  { s with completed := true, gameState := GState.complete }

/-- `complete_game`'s `if self.typed_text:` block — re-append the
current line to the history whenever the buffer is non-empty. -/
def complete_record (s : Session) : Session :=
  if s.typedText ≠ [] then
    { s with history :=
        s.history ++ [(s.targetText, s.typedText, s.mistakePositions)] }
  else s

/-- Final-accuracy block of `complete_game`. -/
def complete_acc (s : Session) : Session :=
  if 0 < s.totalCharsTyped then
    { s with accuracy :=
        (((s.totalCharsTyped : ℚ) - (s.mistakes : ℚ)) / (s.totalCharsTyped : ℚ)) * 100 }
  else { s with accuracy := 0 }

/-- `TypingGame.complete_game` (engine-state part: the username prompt
and user-stat update are modelled separately by `complete_game_user`,
and the final-WPM local variable by `final_wpm`).  Sets
`completed`/`game_state`, re-appends the current line to the history
when `typed_text` is non-empty, refreshes `elapsed_time`, and computes
the final accuracy. -/
def complete_game (now : ℚ) (s : Session) : Session :=
  complete_acc (update_elapsed now (complete_record (complete_mark s)))

/-- `TypingGame.check_line_completion`.  `fresh` stands for
`split_into_lines(random.choice(self.paragraphs))`, the lines of the
new random paragraph drawn in the `"30sec"` branch; `now` for
`time.time()` inside a nested `complete_game`.  Note the source's
last-line dispatch handles only `"30sec"` and `"unlimited"`: a
`"30word"` session that exhausts its paragraph early falls through with
no state change.  `record_line` is the entry block: append the
completed line to history, bump `lines_completed`, add the line's word
count. -/
def record_line (s : Session) : Session :=
  { s with
    history := s.history ++ [(s.targetText, s.typedText, s.mistakePositions)],
    linesCompleted := s.linesCompleted + 1,
    totalWordsTyped := s.totalWordsTyped + wordCount s.targetText }

def check_line_completion (fresh : List (List Char)) (now : ℚ) (s : Session) : Session :=
  if s.typedText.length = s.targetText.length then
    if (record_line s).gameMode = some Mode.word30 ∧
        30 ≤ (record_line s).totalWordsTyped then
      complete_game now (record_line s)
    else if (record_line s).currentLineIndex < (record_line s).currentLines.length - 1 then
      { record_line s with
          currentLineIndex := (record_line s).currentLineIndex + 1,
          targetText := (record_line s).currentLines.getD ((record_line s).currentLineIndex + 1) [],
          typedText := [],
          mistakePositions := ∅ }
    else if (record_line s).gameMode = some Mode.sec30 then
      { record_line s with
          currentLines := fresh,
          currentLineIndex := 0,
          targetText := fresh.getD 0 [],
          typedText := [],
          mistakePositions := ∅ }
    else if (record_line s).gameMode = some Mode.unlimited then
      complete_game now (record_line s)
    else record_line s
  else s

/-- `TypingGame.handle_character(char)`.  The leading-space grace, the
timer start, the two boundary-overflow early returns, then the
append/track/elapsed/live-stats pipeline followed by the
line-completion check. -/
def handle_character (fresh : List (List Char)) (now : ℚ) (c : Char) (s : Session) :
    Session :=
  if c = ' ' ∧ s.typedText = [] ∧ s.targetText ≠ [] ∧ s.targetText.headD ' ' ≠ ' ' then s
  else if c = ' ' ∧
      (timer_start now s).targetText.length ≤ (timer_start now s).typedText.length then
    check_line_completion fresh now (timer_start now s)
  else if (timer_start now s).targetText.length ≤ (timer_start now s).typedText.length then
    check_line_completion fresh now (timer_start now s)
  else
    check_line_completion fresh now
      (update_live_stats (update_elapsed now (track_mistake (append_char c (timer_start now s)))))

/-- Backspace handling in `on_key` (IN_TEST state):
`if self.typed_text: self.typed_text = self.typed_text[:-1]`. -/
def handle_backspace (s : Session) : Session :=
  if s.typedText ≠ [] then { s with typedText := s.typedText.dropLast } else s

/-- `TypingGame.cancel_test` (ESC while IN_TEST). -/
def cancel_test (s : Session) : Session :=
  { s with gameState := GState.menu, typedText := [], startTime := 0, elapsedTime := 0 }

/-- Countdown bookkeeping of `update_countdown`:
`elapsed = now - start_time; countdown_remaining = max(0, 30.0 - elapsed)`. -/
def countdown_set (now : ℚ) (s : Session) : Session :=
  { s with elapsedTime := now - s.startTime,
           countdownRemaining := max 0 (30 - (now - s.startTime)) }

/-- `TypingGame.update_countdown` (100ms tick in `"30sec"` mode). -/
def update_countdown (now : ℚ) (s : Session) : Session :=
  if 0 < s.startTime ∧ s.completed = false then
    if (countdown_set now s).countdownRemaining ≤ 0 then
      complete_game now (countdown_set now s)
    else countdown_set now s
  else s

/-- `TypingGame.update_timer` (100ms tick in `"unlimited"`/`"30word"` modes). -/
def update_timer (now : ℚ) (s : Session) : Session :=
  if 0 < s.startTime ∧ s.completed = false then
    { s with elapsedTime := now - s.startTime }
  else s

/-- `TypingGame.return_to_menu` (full reset; note `target_text` is not
reset by the source). -/
def return_to_menu (s : Session) : Session :=
  { s with gameState := GState.menu, gameMode := none, typedText := [],
           completed := false, startTime := 0, elapsedTime := 0, accuracy := 0,
           mistakes := 0, mistakePositions := ∅, currentLineIndex := 0,
           linesCompleted := 0, totalCharsTyped := 0, totalWordsTyped := 0,
           countdownRemaining := 30, currentLines := [], history := [],
           currentStreak := 0, bestStreak := 0, liveWpm := 0, liveAccuracy := 0 }

/-- `TypingGame.start_mode(mode)`: fresh session for `paragraph`
(standing for `random.choice(self.paragraphs)`). -/
def start_mode (mode : Mode) (paragraph : List Char) (s : Session) : Session :=
  { s with gameState := GState.menu, gameMode := some mode,
           currentLines := split_into_lines paragraph 10,
           currentLineIndex := 0,
           targetText := (split_into_lines paragraph 10).getD 0 [],
           typedText := [], completed := false, startTime := 0, elapsedTime := 0,
           accuracy := 0, mistakes := 0, mistakePositions := ∅,
           linesCompleted := 0, totalCharsTyped := 0, totalWordsTyped := 0,
           countdownRemaining := 30, history := [],
           currentStreak := 0, bestStreak := 0, liveWpm := 0, liveAccuracy := 0 }

/-- The discrete events the state machine serializes onto the session
while a mode is active: character input, backspace, the two timer
ticks, cancel, and return-to-menu (reset). -/
inductive Ev where
  | ch (c : Char) (now : ℚ) (fresh : List (List Char))
  | bs
  | tickC (now : ℚ)
  | tickT (now : ℚ)
  | cancel
  | reset
  deriving DecidableEq

/-- Event dispatch (the serialized event loop). -/
def step (e : Ev) (s : Session) : Session :=
  match e with
  | Ev.ch c now fresh => handle_character fresh now c s
  | Ev.bs => handle_backspace s
  | Ev.tickC now => update_countdown now s
  | Ev.tickT now => update_timer now s
  | Ev.cancel => cancel_test s
  | Ev.reset => return_to_menu s

/-- Run a list of events in order. -/
def runEvents (evs : List Ev) (s : Session) : Session :=
  evs.foldl (fun s e => step e s) s

/-- An event that stays within one session's lifetime (everything but
the full reset, which discards the session). -/
def sessionEv : Ev → Prop
  | Ev.reset => False
  | _ => True

instance : DecidablePred sessionEv := by
  intro e
  cases e <;> simp [sessionEv] <;> infer_instance

/-! ## User-aggregate store (`user_data`, `update_user_stats`)

The Python `user_data` dict (username → per-user aggregate) is an
insertion-ordered mapping with unique keys; it is modelled as an
association list.  Python truthiness of `self.current_user` (`None` or
`""` are falsy) is modelled on `Option String`. -/

/-- One entry of `user_data` (see `create_user`). -/
structure UserAgg where
  tests_completed : Nat
  total_wpm : ℚ
  best_wpm : ℤ
  total_accuracy : ℚ
  best_accuracy : ℚ
  deriving DecidableEq

/-- The zero aggregate created by `create_user`. -/
def freshAgg : UserAgg := ⟨0, 0, 0, 0, 0⟩

abbrev UserData := List (String × UserAgg)

/-- Dict lookup `user_data.get(k)` / `k in user_data`. -/
def dget (k : String) : UserData → Option UserAgg
  | [] => none
  | (k', v) :: rest => if k' = k then some v else dget k rest

/-- In-place update of the (unique) entry with key `k`. -/
def dupdate (k : String) (f : UserAgg → UserAgg) : UserData → UserData
  | [] => []
  | (k', v) :: rest =>
    if k' = k then (k', f v) :: rest else (k', v) :: dupdate k f rest

/-- `TypingGame.create_user(username)`: insert a zero aggregate if the
username is absent (dict insertion appends at the end). -/
def create_user (username : String) (data : UserData) : UserData :=
  if (dget username data).isSome then data else data ++ [(username, freshAgg)]

/-- Python truthiness of `self.current_user` (`None` and `""` falsy). -/
def truthyUser : Option String → Bool
  | none => false
  | some u => u ≠ ""

/-- The per-aggregate mutation performed by `update_user_stats`:
increment `tests_completed`, sum `wpm`/`accuracy` into the running
totals, and raise the bests when exceeded. -/
def apply_test (wpm : ℤ) (acc : ℚ) (u : UserAgg) : UserAgg :=
  let u1 := { u with tests_completed := u.tests_completed + 1,
                     total_wpm := u.total_wpm + (wpm : ℚ),
                     total_accuracy := u.total_accuracy + acc }
  let u2 := if u1.best_wpm < wpm then { u1 with best_wpm := wpm } else u1
  if u2.best_accuracy < acc then { u2 with best_accuracy := acc } else u2

/-- `TypingGame.update_user_stats(wpm, accuracy)`: early return when
`not self.current_user`; otherwise ensure the user exists and mutate
its aggregate (the trailing `save_user_data` is persistence glue with
no effect on the mapping). -/
def update_user_stats (wpm : ℤ) (acc : ℚ) (cu : Option String) (data : UserData) :
    UserData :=
  match cu with
  | none => data
  | some u =>
    if u = "" then data
    else dupdate u (apply_test wpm acc) (create_user u data)

/-- `TypingGame.prompt_username`: `promptResult` is the value returned
by the username dialog; only a truthy username creates a user and
becomes current. -/
def prompt_username (promptResult : Option String) (cu : Option String)
    (data : UserData) : Option String × UserData :=
  match promptResult with
  | some u => if u ≠ "" then (some u, create_user u data) else (cu, data)
  | none => (cu, data)

/-- The user-stat tail of `complete_game`: prompt for a username when
no current user is set, then update stats only when a (truthy) current
user exists. -/
def complete_game_user (promptResult : Option String) (wpm : ℤ) (acc : ℚ)
    (cu : Option String) (data : UserData) : Option String × UserData :=
  let p := if cu = none then prompt_username promptResult cu data else (cu, data)
  if truthyUser p.1 then (p.1, update_user_stats wpm acc p.1 p.2) else p

/-! ## Concrete states for witnesses and counterexamples -/

/-- A quiescent in-test session with everything zeroed. -/
def baseSession : Session :=
  { gameState := GState.inTest, gameMode := some Mode.unlimited,
    currentLines := [], currentLineIndex := 0, targetText := [], typedText := [],
    history := [], linesCompleted := 0, totalCharsTyped := 0, totalWordsTyped := 0,
    mistakes := 0, mistakePositions := ∅, currentStreak := 0, bestStreak := 0,
    startTime := 0, elapsedTime := 0, liveWpm := 0, liveAccuracy := 0, accuracy := 0,
    countdownRemaining := 30, completed := false }

/-! ## Frame lemmas for the pipeline stages -/

theorem timer_start_frame (now : ℚ) (s : Session) :
    (timer_start now s).typedText = s.typedText ∧
    (timer_start now s).targetText = s.targetText ∧
    (timer_start now s).history = s.history ∧
    (timer_start now s).completed = s.completed ∧
    (timer_start now s).mistakes = s.mistakes ∧
    (timer_start now s).mistakePositions = s.mistakePositions ∧
    (timer_start now s).totalCharsTyped = s.totalCharsTyped ∧
    (timer_start now s).currentStreak = s.currentStreak ∧
    (timer_start now s).bestStreak = s.bestStreak ∧
    (timer_start now s).liveWpm = s.liveWpm ∧
    (timer_start now s).liveAccuracy = s.liveAccuracy ∧
    (timer_start now s).accuracy = s.accuracy ∧
    (timer_start now s).gameMode = s.gameMode := by
  unfold timer_start; split_ifs <;> simp

theorem update_elapsed_frame (now : ℚ) (s : Session) :
    (update_elapsed now s).typedText = s.typedText ∧
    (update_elapsed now s).targetText = s.targetText ∧
    (update_elapsed now s).history = s.history ∧
    (update_elapsed now s).completed = s.completed ∧
    (update_elapsed now s).mistakes = s.mistakes ∧
    (update_elapsed now s).mistakePositions = s.mistakePositions ∧
    (update_elapsed now s).totalCharsTyped = s.totalCharsTyped ∧
    (update_elapsed now s).currentStreak = s.currentStreak ∧
    (update_elapsed now s).bestStreak = s.bestStreak ∧
    (update_elapsed now s).liveWpm = s.liveWpm ∧
    (update_elapsed now s).liveAccuracy = s.liveAccuracy ∧
    (update_elapsed now s).accuracy = s.accuracy ∧
    (update_elapsed now s).startTime = s.startTime ∧
    (update_elapsed now s).gameMode = s.gameMode := by
  unfold update_elapsed; split_ifs <;> simp

theorem track_mistake_frame (s : Session) :
    (track_mistake s).typedText = s.typedText ∧
    (track_mistake s).targetText = s.targetText ∧
    (track_mistake s).history = s.history ∧
    (track_mistake s).completed = s.completed ∧
    (track_mistake s).totalCharsTyped = s.totalCharsTyped ∧
    (track_mistake s).liveWpm = s.liveWpm ∧
    (track_mistake s).liveAccuracy = s.liveAccuracy ∧
    (track_mistake s).accuracy = s.accuracy ∧
    (track_mistake s).startTime = s.startTime ∧
    (track_mistake s).elapsedTime = s.elapsedTime ∧
    (track_mistake s).gameMode = s.gameMode := by
  unfold track_mistake mistake_record streak_up; split_ifs <;> simp

theorem update_live_stats_frame (s : Session) :
    (update_live_stats s).typedText = s.typedText ∧
    (update_live_stats s).targetText = s.targetText ∧
    (update_live_stats s).history = s.history ∧
    (update_live_stats s).completed = s.completed ∧
    (update_live_stats s).mistakes = s.mistakes ∧
    (update_live_stats s).mistakePositions = s.mistakePositions ∧
    (update_live_stats s).totalCharsTyped = s.totalCharsTyped ∧
    (update_live_stats s).currentStreak = s.currentStreak ∧
    (update_live_stats s).bestStreak = s.bestStreak ∧
    (update_live_stats s).accuracy = s.accuracy ∧
    (update_live_stats s).startTime = s.startTime ∧
    (update_live_stats s).gameMode = s.gameMode := by
  unfold update_live_stats live_acc_set live_wpm_set; split_ifs <;> simp

theorem complete_game_frame (now : ℚ) (s : Session) :
    (complete_game now s).mistakes = s.mistakes ∧
    (complete_game now s).totalCharsTyped = s.totalCharsTyped ∧
    (complete_game now s).currentStreak = s.currentStreak ∧
    (complete_game now s).bestStreak = s.bestStreak ∧
    (complete_game now s).liveWpm = s.liveWpm ∧
    (complete_game now s).liveAccuracy = s.liveAccuracy ∧
    (complete_game now s).startTime = s.startTime ∧
    (complete_game now s).gameMode = s.gameMode ∧
    (complete_game now s).completed = true := by
  unfold complete_game complete_acc update_elapsed complete_record complete_mark
  split_ifs <;> simp

theorem check_line_completion_frame (fresh : List (List Char)) (now : ℚ) (s : Session) :
    (check_line_completion fresh now s).mistakes = s.mistakes ∧
    (check_line_completion fresh now s).totalCharsTyped = s.totalCharsTyped ∧
    (check_line_completion fresh now s).currentStreak = s.currentStreak ∧
    (check_line_completion fresh now s).bestStreak = s.bestStreak ∧
    (check_line_completion fresh now s).liveWpm = s.liveWpm ∧
    (check_line_completion fresh now s).liveAccuracy = s.liveAccuracy ∧
    (check_line_completion fresh now s).startTime = s.startTime ∧
    (check_line_completion fresh now s).gameMode = s.gameMode := by
  unfold check_line_completion
  split_ifs with h1 h2 h3 h4 h5
  · exact ⟨(complete_game_frame now _).1, (complete_game_frame now _).2.1,
      (complete_game_frame now _).2.2.1, (complete_game_frame now _).2.2.2.1,
      (complete_game_frame now _).2.2.2.2.1, (complete_game_frame now _).2.2.2.2.2.1,
      (complete_game_frame now _).2.2.2.2.2.2.1, (complete_game_frame now _).2.2.2.2.2.2.2.1⟩
  · unfold record_line; simp
  · unfold record_line; simp
  · exact ⟨(complete_game_frame now _).1, (complete_game_frame now _).2.1,
      (complete_game_frame now _).2.2.1, (complete_game_frame now _).2.2.2.1,
      (complete_game_frame now _).2.2.2.2.1, (complete_game_frame now _).2.2.2.2.2.1,
      (complete_game_frame now _).2.2.2.2.2.2.1, (complete_game_frame now _).2.2.2.2.2.2.2.1⟩
  · unfold record_line; simp
  · simp

/-! ## C6: leading-space suppression -/

/-- C6: when the typed buffer is empty and the non-empty target line
does not begin with a space, handling a space input is a complete
no-op: the session state is returned unchanged (so the buffer stays
empty, no mistake or counter changes, and `startTime` is not set). -/
theorem c6_leading_space_noop (fresh : List (List Char)) (now : ℚ) (s : Session)
    (h1 : s.typedText = []) (h2 : s.targetText ≠ [])
    (h3 : s.targetText.headD ' ' ≠ ' ') :
    handle_character fresh now ' ' s = s := by
  unfold handle_character
  rw [if_pos ⟨rfl, h1, h2, h3⟩]

/-- C6 witness: target line `"cat sat"`, empty buffer, input `' '`. -/
theorem c6_leading_space_noop_witness :
    handle_character [] 0 ' ' { baseSession with targetText := "cat sat".toList } =
      { baseSession with targetText := "cat sat".toList } :=
  c6_leading_space_noop [] 0 _ rfl (by decide) (by decide)

/-! ## C7: backspace frame effect -/

/-- `handle_backspace` always equals the state whose buffer lost its
last character (`dropLast` is the identity on `[]`). -/
theorem handle_backspace_dropLast (s : Session) :
    handle_backspace s = { s with typedText := s.typedText.dropLast } := by
  unfold handle_backspace
  split_ifs with h
  · rfl
  · push_neg at h
    have h2 : s.typedText.dropLast = s.typedText := by rw [h]; rfl
    rw [h2]

/-- C7: `handleBackspace` removes exactly the last character of the
typed buffer (`dropLast` is the identity on the empty buffer, so the
empty case is a no-op), and every other field — `totalCharsTyped`,
`totalMistakes`, `currentStreak`, `bestStreak`, `mistakePositions`,
and the current line position — is untouched. -/
theorem c7_backspace_frame (s : Session) :
    handle_backspace s = { s with typedText := s.typedText.dropLast } ∧
    (handle_backspace s).totalCharsTyped = s.totalCharsTyped ∧
    (handle_backspace s).mistakes = s.mistakes ∧
    (handle_backspace s).currentStreak = s.currentStreak ∧
    (handle_backspace s).bestStreak = s.bestStreak ∧
    (handle_backspace s).mistakePositions = s.mistakePositions ∧
    (handle_backspace s).currentLineIndex = s.currentLineIndex ∧
    (handle_backspace s).targetText = s.targetText ∧
    (handle_backspace s).currentLines = s.currentLines := by
  rw [handle_backspace_dropLast]
  exact ⟨rfl, rfl, rfl, rfl, rfl, rfl, rfl, rfl, rfl⟩

/-! ## C3: cancel during a running test -/

/-- A running `"30word"` session with accumulated state, used to show
what `cancel_test` does and does not reset. -/
def c3Session : Session :=
  { baseSession with
    gameMode := some Mode.word30,
    currentLines := [['h','i']],
    targetText := ['h','i'],
    typedText := ['x'],
    history := [(['a'], ['b'], {0})],
    totalCharsTyped := 7,
    mistakes := 3,
    mistakePositions := {0},
    totalWordsTyped := 4,
    currentStreak := 2,
    bestStreak := 5,
    startTime := 1,
    elapsedTime := 2 }

/-- C3 counterexample: after a cancel in the running state the chosen
mode is NOT cleared and the per-session counters, mistake positions and
completed-line history are NOT reset, contradicting the claim that the
session is discarded entirely with no chosen mode remaining. -/
theorem c3_cancel_counterexample :
    (cancel_test c3Session).gameState = GState.menu ∧
    (cancel_test c3Session).gameMode = some Mode.word30 ∧
    (cancel_test c3Session).mistakes = 3 ∧
    (cancel_test c3Session).totalCharsTyped = 7 ∧
    (cancel_test c3Session).mistakePositions = {0} ∧
    (cancel_test c3Session).history = [(['a'], ['b'], {0})] := by
  exact ⟨rfl, rfl, rfl, rfl, rfl, rfl⟩

/-- C3 amended: a cancel event in the running state transitions to the
menu and clears only the typed buffer and the timing fields
(`startTime`, `elapsedTime`); the chosen mode, the counters, the
mistake positions and the completed-line history are all retained (they
are reset only when a mode is started again or the menu is reached via
`return_to_menu`). -/
theorem c3_cancel_partial_reset (s : Session) :
    cancel_test s = { s with gameState := GState.menu, typedText := [],
                             startTime := 0, elapsedTime := 0 } ∧
    (cancel_test s).gameMode = s.gameMode ∧
    (cancel_test s).mistakes = s.mistakes ∧
    (cancel_test s).mistakePositions = s.mistakePositions ∧
    (cancel_test s).totalCharsTyped = s.totalCharsTyped ∧
    (cancel_test s).totalWordsTyped = s.totalWordsTyped ∧
    (cancel_test s).currentStreak = s.currentStreak ∧
    (cancel_test s).bestStreak = s.bestStreak ∧
    (cancel_test s).history = s.history := by
  exact ⟨rfl, rfl, rfl, rfl, rfl, rfl, rfl, rfl, rfl⟩

/-! ## C2: WordSprint paragraph exhaustion below the word target -/

/-- A `"30word"` session on the last (only) line `"hi"` with one
character already typed and 0 words counted so far (timer not yet
started, so the ℚ-valued live-stat branches stay off the evaluation
path). -/
def c2Session : Session :=
  { baseSession with
    gameMode := some Mode.word30,
    currentLines := [['h','i']],
    targetText := ['h','i'],
    typedText := ['h'],
    totalCharsTyped := 1 }

/-- C2 (code bug, evaluation at the failing input): completing the last
line of the paragraph in `"30word"` mode with `totalWordsTyped` still
below 30 does NOT draw a fresh paragraph — the line list, line index
and the (full) typed buffer are all left unchanged even though a fresh
paragraph `[['x','y']]` was available, and the session is not
completed; worse, the very next keystroke re-runs the completion check
on the same full buffer, appending the same line to the history a
second time and counting its words again. -/
theorem c2_word_sprint_stall_eval :
    (handle_character [['x','y']] 2 'i' c2Session).currentLines = [['h','i']] ∧
    (handle_character [['x','y']] 2 'i' c2Session).currentLineIndex = 0 ∧
    (handle_character [['x','y']] 2 'i' c2Session).typedText = ['h','i'] ∧
    (handle_character [['x','y']] 2 'i' c2Session).completed = false ∧
    (handle_character [['x','y']] 2 'i' c2Session).totalWordsTyped = 1 ∧
    (handle_character [['x','y']] 2 'i' c2Session).history.length = 1 ∧
    (handle_character [] 3 'z'
        (handle_character [['x','y']] 2 'i' c2Session)).history.length = 2 ∧
    (handle_character [] 3 'z'
        (handle_character [['x','y']] 2 'i' c2Session)).totalWordsTyped = 2 := by
  decide

/-! ## C1: entries appended to the completed-line history -/

theorem complete_game_history (now : ℚ) (s : Session) (h : s.typedText ≠ []) :
    (complete_game now s).history =
      s.history ++ [(s.targetText, s.typedText, s.mistakePositions)] := by
  unfold complete_game complete_acc update_elapsed complete_record complete_mark
  split_ifs <;> simp_all

/-- On a filled line (`len(typed) == len(target)`, non-empty), the
completion check appends the line's triple once, and when it also ends
the test (`"30word"` target reached or `"unlimited"` last line),
`complete_game` appends the identical triple a second time. -/
theorem check_line_completion_history (fresh : List (List Char)) (now : ℚ)
    (s : Session) (hlen : s.typedText.length = s.targetText.length)
    (hne : s.typedText ≠ []) :
    ((check_line_completion fresh now s).completed = s.completed ∧
      (check_line_completion fresh now s).history =
        s.history ++ [(s.targetText, s.typedText, s.mistakePositions)]) ∨
    ((check_line_completion fresh now s).completed = true ∧
      (check_line_completion fresh now s).history =
        s.history ++ [(s.targetText, s.typedText, s.mistakePositions),
                      (s.targetText, s.typedText, s.mistakePositions)]) := by
  unfold check_line_completion
  rw [if_pos hlen]
  have hrec : (record_line s).typedText ≠ [] := hne
  split_ifs with h1 h2 h3 h4
  · right
    refine ⟨(complete_game_frame now _).2.2.2.2.2.2.2.2, ?_⟩
    have hh := complete_game_history now (record_line s) hrec
    simpa [record_line] using hh
  · left
    constructor <;> simp [record_line]
  · left
    constructor <;> simp [record_line]
  · right
    refine ⟨(complete_game_frame now _).2.2.2.2.2.2.2.2, ?_⟩
    have hh := complete_game_history now (record_line s) hrec
    simpa [record_line] using hh
  · left
    constructor <;> simp [record_line]

/-- C1 amended: an input event that completes a line (the buffer
reaches the target-line length with this keystroke) appends exactly one
entry `(target, typed, mistake-set)` to `completedLines` when the
completion does not end the test; when it does end the test, the same
entry is appended twice (once by `check_line_completion`, a duplicate
by `complete_game`). -/
theorem c1_line_completion_appends (fresh : List (List Char)) (now : ℚ) (c : Char)
    (s : Session)
    (hfill : s.typedText.length + 1 = s.targetText.length)
    (hsup : ¬(c = ' ' ∧ s.typedText = [])) :
    ∃ m, ((handle_character fresh now c s).completed = s.completed ∧
          (handle_character fresh now c s).history =
            s.history ++ [(s.targetText, s.typedText ++ [c], m)]) ∨
         ((handle_character fresh now c s).completed = true ∧
          (handle_character fresh now c s).history =
            s.history ++ [(s.targetText, s.typedText ++ [c], m),
                          (s.targetText, s.typedText ++ [c], m)]) := by
  obtain ⟨ht1, ht2, -⟩ := timer_start_frame now s
  have hlt : ¬((timer_start now s).targetText.length ≤ (timer_start now s).typedText.length) := by
    rw [ht1, ht2]; omega
  unfold handle_character
  rw [if_neg (fun hc => hsup ⟨hc.1, hc.2.1⟩),
      if_neg (fun hc => hlt hc.2), if_neg hlt]
  set s4 := update_live_stats (update_elapsed now (track_mistake (append_char c (timer_start now s)))) with hs4
  obtain ⟨hl1, hl2, hl3, hl4, -⟩ := update_live_stats_frame
    (update_elapsed now (track_mistake (append_char c (timer_start now s))))
  obtain ⟨he1, he2, he3, he4, -⟩ := update_elapsed_frame now
    (track_mistake (append_char c (timer_start now s)))
  obtain ⟨hm1, hm2, hm3, hm4, -⟩ := track_mistake_frame (append_char c (timer_start now s))
  have h4typed : s4.typedText = s.typedText ++ [c] := by
    rw [hs4, hl1, he1, hm1]; show (timer_start now s).typedText ++ [c] = _; rw [ht1]
  have h4target : s4.targetText = s.targetText := by
    rw [hs4, hl2, he2, hm2]; show (timer_start now s).targetText = _; rw [ht2]
  have h4hist : s4.history = s.history := by
    rw [hs4, hl3, he3, hm3]; show (timer_start now s).history = _
    exact (timer_start_frame now s).2.2.1
  have h4comp : s4.completed = s.completed := by
    rw [hs4, hl4, he4, hm4]; show (timer_start now s).completed = _
    exact (timer_start_frame now s).2.2.2.1
  have hlen : s4.typedText.length = s4.targetText.length := by
    rw [h4typed, h4target]; simpa using hfill
  have hne : s4.typedText ≠ [] := by
    rw [h4typed]; simp
  refine ⟨s4.mistakePositions, ?_⟩
  rcases check_line_completion_history fresh now s4 hlen hne with ⟨hc, hh⟩ | ⟨hc, hh⟩
  · left
    rw [hc, hh, h4typed, h4target, h4hist, h4comp]
    exact ⟨rfl, rfl⟩
  · right
    rw [hc, hh, h4typed, h4target, h4hist]
    exact ⟨rfl, rfl⟩

/-- An `"unlimited"` session on its only line `"hi"` with `"h"` typed:
the next keystroke completes the line and ends the test. -/
def c1Session : Session :=
  { baseSession with
    gameMode := some Mode.unlimited,
    currentLines := [['h','i']],
    targetText := ['h','i'],
    typedText := ['h'],
    totalCharsTyped := 1 }

/-- C1 counterexample: a single completing keystroke — here the one
that ends the test — appends TWO entries to `completedLines`, not
exactly one as claimed. -/
theorem c1_counterexample :
    c1Session.typedText.length + 1 = c1Session.targetText.length ∧
    c1Session.history.length = 0 ∧
    (handle_character [] 0 'i' c1Session).completed = true ∧
    (handle_character [] 0 'i' c1Session).history.length = 2 := by
  decide

/-- C1 witness: instantiation of `c1_line_completion_appends` at the
test-ending keystroke of `c1Session`. -/
theorem c1_line_completion_appends_witness :
    ∃ m, ((handle_character [] 0 'i' c1Session).completed = c1Session.completed ∧
          (handle_character [] 0 'i' c1Session).history =
            c1Session.history ++ [(c1Session.targetText, c1Session.typedText ++ ['i'], m)]) ∨
         ((handle_character [] 0 'i' c1Session).completed = true ∧
          (handle_character [] 0 'i' c1Session).history =
            c1Session.history ++ [(c1Session.targetText, c1Session.typedText ++ ['i'], m),
                                  (c1Session.targetText, c1Session.typedText ++ ['i'], m)]) :=
  c1_line_completion_appends [] 0 'i' c1Session (by decide) (by decide)

/-! ## C5: final-WPM formulas -/

/-- The final-WPM computation as worded by the spec (§4.3), for
comparison with the code-side `final_wpm`: `TimedSprint` uses
`words = chars/5` and fixed `minutes = 0.5`; `WordSprint` uses
`words = 30` (the configured target) and `minutes = elapsed/60`;
`Unlimited` uses `words = chars/5` and `minutes = elapsed/60` with `1`
substituted when elapsed is 0; the result is truncated to an integer,
and is 0 when minutes is not positive. -/
def finalWpmSpec (mode : Mode) (totalChars : Nat) (elapsed : ℚ) : ℤ :=
  let words : ℚ :=
    match mode with
    | Mode.sec30 => (totalChars : ℚ) / 5
    | Mode.word30 => 30
    | Mode.unlimited => (totalChars : ℚ) / 5
  let minutes : ℚ :=
    match mode with
    | Mode.sec30 => 1 / 2
    | Mode.word30 => elapsed / 60
    | Mode.unlimited => if elapsed = 0 then 1 else elapsed / 60
  if 0 < minutes then pyTrunc (words / minutes) else 0

/-- C5: for every mode and non-negative elapsed time the code's final
WPM agrees with the spec's mode-dependent formulas; moreover the
`TimedSprint` result is independent of the elapsed time and the
`WordSprint` result is independent of the characters typed. -/
theorem c5_final_wpm_formulas (mode : Mode) (chars : Nat) (elapsed : ℚ)
    (h : 0 ≤ elapsed) :
    final_wpm (some mode) chars elapsed = finalWpmSpec mode chars elapsed ∧
    (∀ e2 : ℚ, final_wpm (some Mode.sec30) chars e2 =
      final_wpm (some Mode.sec30) chars elapsed) ∧
    (∀ chars2 : Nat, final_wpm (some Mode.word30) chars2 elapsed =
      final_wpm (some Mode.word30) chars elapsed) := by
  refine ⟨?_, fun e2 => rfl, fun chars2 => rfl⟩
  cases mode with
  | sec30 => rfl
  | word30 => rfl
  | unlimited =>
    rcases eq_or_lt_of_le h with h0 | h0
    · rw [← h0]
      simp [final_wpm, wpm_words_minutes, finalWpmSpec]
    · simp [final_wpm, wpm_words_minutes, finalWpmSpec, h0, h0.ne']

/-- C5 witness: `Unlimited` with 10 characters and elapsed 0. -/
theorem c5_final_wpm_formulas_witness :
    final_wpm (some Mode.unlimited) 10 0 = finalWpmSpec Mode.unlimited 10 0 :=
  (c5_final_wpm_formulas Mode.unlimited 10 0 (le_refl 0)).1

/-! ## C10: no user, no mutation of the user-data mapping -/

theorem dget_dupdate (k : String) (f : UserAgg → UserAgg) (d : UserData) :
    dget k (dupdate k f d) = (dget k d).map f := by
  induction d with
  | nil => rfl
  | cons p rest ih =>
    obtain ⟨k', v⟩ := p
    by_cases h : k' = k
    · simp [dupdate, dget, h]
    · simp [dupdate, dget, h, ih]

theorem create_user_present (u : String) (d : UserData) (agg : UserAgg)
    (h : dget u d = some agg) : create_user u d = d := by
  unfold create_user
  rw [h]
  rfl

/-- C10: when a test completes with no current user and the username
prompt yields nothing (cancelled or empty), the user-data mapping is
returned entirely unchanged and no user becomes current;
`update_user_stats` is the identity on the mapping whenever the current
user is unset (falsy), and when a current user does exist it applies
exactly one `apply_test` mutation to that user's aggregate. -/
theorem c10_no_user_no_mutation (promptResult : Option String) (wpm : ℤ) (acc : ℚ)
    (data : UserData)
    (hp : promptResult = none ∨ promptResult = some "") :
    (complete_game_user promptResult wpm acc none data).2 = data ∧
    (complete_game_user promptResult wpm acc none data).1 = none ∧
    (∀ cu, truthyUser cu = false → update_user_stats wpm acc cu data = data) ∧
    (∀ u agg, u ≠ "" → dget u data = some agg →
      dget u (update_user_stats wpm acc (some u) data) =
        some (apply_test wpm acc agg)) := by
  have hmain : complete_game_user promptResult wpm acc none data = (none, data) := by
    rcases hp with h | h <;> subst h <;>
      simp [complete_game_user, prompt_username, truthyUser]
  refine ⟨by rw [hmain], by rw [hmain], ?_, ?_⟩
  · intro cu hcu
    cases cu with
    | none => rfl
    | some u =>
      have hu : u = "" := by
        by_contra hne
        simp [truthyUser, hne] at hcu
      simp only [update_user_stats]
      rw [if_pos hu]
  · intro u agg hu hagg
    simp only [update_user_stats]
    rw [if_neg hu, create_user_present u data agg hagg, dget_dupdate, hagg]
    rfl

/-- C10 witness: prompt cancelled, one stored user `"bob"`. -/
theorem c10_no_user_no_mutation_witness :
    (complete_game_user none 42 95 none [("bob", freshAgg)]).2 =
      [("bob", freshAgg)] :=
  (c10_no_user_no_mutation none 42 95 [("bob", freshAgg)] (Or.inl rfl)).1

/-! ## C4: mistake de-duplication within one line instance -/

theorem check_line_completion_noop (fresh : List (List Char)) (now : ℚ)
    (s : Session) (h : s.typedText.length ≠ s.targetText.length) :
    check_line_completion fresh now s = s := by
  unfold check_line_completion
  rw [if_neg h]

/-- When the appended character does not fill the line, the completion
check is a no-op and `handle_character` is exactly the
append/track/elapsed/live-stats pipeline. -/
theorem handle_character_no_completion (fresh : List (List Char)) (now : ℚ)
    (c : Char) (s : Session)
    (hsup : ¬(c = ' ' ∧ s.typedText = [] ∧ s.targetText ≠ [] ∧
      s.targetText.headD ' ' ≠ ' '))
    (hlt : s.typedText.length + 1 < s.targetText.length) :
    handle_character fresh now c s =
      update_live_stats (update_elapsed now (track_mistake (append_char c (timer_start now s)))) := by
  obtain ⟨ht1, ht2, -⟩ := timer_start_frame now s
  have hle : ¬((timer_start now s).targetText.length ≤ (timer_start now s).typedText.length) := by
    rw [ht1, ht2]; omega
  unfold handle_character
  rw [if_neg hsup, if_neg (fun hc => hle hc.2), if_neg hle]
  apply check_line_completion_noop
  obtain ⟨hl1, hl2, -⟩ := update_live_stats_frame
    (update_elapsed now (track_mistake (append_char c (timer_start now s))))
  obtain ⟨he1, he2, -⟩ := update_elapsed_frame now
    (track_mistake (append_char c (timer_start now s)))
  obtain ⟨hm1, hm2, -⟩ := track_mistake_frame (append_char c (timer_start now s))
  rw [hl1, hl2, he1, he2, hm1, hm2]
  show ((timer_start now s).typedText ++ [c]).length ≠ (timer_start now s).targetText.length
  rw [ht1, ht2]
  simp
  omega

theorem getD_append_length (l : List Char) (x d : Char) :
    (l ++ [x]).getD l.length d = x := by
  induction l with
  | nil => rfl
  | cons a t ih =>
    simp only [List.cons_append, List.length_cons, List.getD_cons_succ]
    exact ih

/-- Mismatch branch of `track_mistake`: the position is inserted
(idempotently) and `mistakes` increments only when the position was not
yet recorded; the streak resets. -/
theorem track_mistake_wrong (s : Session)
    (hpos : s.typedText.length - 1 < s.targetText.length)
    (hne : s.typedText.getD (s.typedText.length - 1) ' ' ≠
      s.targetText.getD (s.typedText.length - 1) ' ') :
    (track_mistake s).mistakePositions =
      insert (s.typedText.length - 1) s.mistakePositions ∧
    (track_mistake s).mistakes =
      (if s.typedText.length - 1 ∈ s.mistakePositions then s.mistakes
       else s.mistakes + 1) ∧
    (track_mistake s).currentStreak = 0 := by
  unfold track_mistake mistake_record
  rw [if_pos ⟨hpos, hne⟩]
  split_ifs with h
  · exact ⟨(Finset.insert_eq_self.mpr h).symm, rfl, rfl⟩
  · exact ⟨rfl, rfl, rfl⟩

/-- Match branch of `track_mistake`: mistakes and positions untouched. -/
theorem track_mistake_right (s : Session)
    (h : ¬(s.typedText.length - 1 < s.targetText.length ∧
        s.typedText.getD (s.typedText.length - 1) ' ' ≠
          s.targetText.getD (s.typedText.length - 1) ' ')) :
    (track_mistake s).mistakePositions = s.mistakePositions ∧
    (track_mistake s).mistakes = s.mistakes := by
  unfold track_mistake streak_up
  rw [if_neg h]
  split_ifs <;> exact ⟨rfl, rfl⟩

/-- Mistake/position bookkeeping of one non-completing keystroke:
positions become `insert k` of the old set on a mismatch at offset `k`
(unchanged on a match), and `mistakes` grows by one exactly when the
mismatch offset was new. -/
theorem handle_character_mistakes (fresh : List (List Char)) (now : ℚ)
    (c : Char) (s : Session)
    (hsup : ¬(c = ' ' ∧ s.typedText = [] ∧ s.targetText ≠ [] ∧
      s.targetText.headD ' ' ≠ ' '))
    (hlt : s.typedText.length + 1 < s.targetText.length) :
    ((handle_character fresh now c s).typedText = s.typedText ++ [c]) ∧
    ((handle_character fresh now c s).targetText = s.targetText) ∧
    (c ≠ s.targetText.getD s.typedText.length ' ' →
      (handle_character fresh now c s).mistakePositions =
        insert s.typedText.length s.mistakePositions ∧
      (handle_character fresh now c s).mistakes =
        (if s.typedText.length ∈ s.mistakePositions then s.mistakes
         else s.mistakes + 1)) ∧
    (c = s.targetText.getD s.typedText.length ' ' →
      (handle_character fresh now c s).mistakePositions = s.mistakePositions ∧
      (handle_character fresh now c s).mistakes = s.mistakes) := by
  rw [handle_character_no_completion fresh now c s hsup hlt]
  obtain ⟨ht1, ht2, -, -, hts5, htm, -⟩ := timer_start_frame now s
  obtain ⟨hl1, hl2, -, -, hl5, hl6, -⟩ := update_live_stats_frame
    (update_elapsed now (track_mistake (append_char c (timer_start now s))))
  obtain ⟨he1, he2, -, -, he5, he6, -⟩ := update_elapsed_frame now
    (track_mistake (append_char c (timer_start now s)))
  obtain ⟨hm1, hm2, -⟩ := track_mistake_frame (append_char c (timer_start now s))
  have hACp : (append_char c (timer_start now s)).mistakePositions =
      s.mistakePositions := htm
  have hACm : (append_char c (timer_start now s)).mistakes = s.mistakes := hts5
  have hTyped : (append_char c (timer_start now s)).typedText = s.typedText ++ [c] := by
    show (timer_start now s).typedText ++ [c] = _; rw [ht1]
  have hTarget : (append_char c (timer_start now s)).targetText = s.targetText := ht2
  have hPosIdx : (append_char c (timer_start now s)).typedText.length - 1 =
      s.typedText.length := by
    rw [hTyped]; simp
  have hGet : (append_char c (timer_start now s)).typedText.getD
      ((append_char c (timer_start now s)).typedText.length - 1) ' ' = c := by
    rw [hPosIdx, hTyped]
    exact getD_append_length s.typedText c ' '
  have hTGet : (append_char c (timer_start now s)).targetText.getD
      ((append_char c (timer_start now s)).typedText.length - 1) ' ' =
      s.targetText.getD s.typedText.length ' ' := by
    rw [hPosIdx, hTarget]
  refine ⟨?_, ?_, ?_, ?_⟩
  · rw [hl1, he1, hm1, hTyped]
  · rw [hl2, he2, hm2, hTarget]
  · intro hc
    have hw := track_mistake_wrong (append_char c (timer_start now s))
      (by rw [hPosIdx, hTarget]; omega)
      (by rw [hGet, hTGet]; exact hc)
    constructor
    · rw [hl6, he6, hw.1, hPosIdx, hACp]
    · rw [hl5, he5, hw.2.1, hPosIdx, hACp, hACm]
  · intro hc
    have hr := track_mistake_right (append_char c (timer_start now s))
      (fun hcontra => hcontra.2 (by rw [hGet, hTGet]; exact hc))
    constructor
    · rw [hl6, he6, hr.1, hACp]
    · rw [hl5, he5, hr.2, hACm]

theorem dropLast_append_singleton (l : List Char) (x : Char) :
    (l ++ [x]).dropLast = l := by
  simp

/-- C4: within one line instance, typing a wrong character at offset
`k`, backspacing, and retyping (any character) increases
`totalMistakes` by at most 1 and leaves `mistakePositions` equal to
`insert k` of the old set — so `k` is recorded (as a set element, hence
at most once) and is not removed by the correction. -/
theorem c4_mistake_dedup (fresh1 fresh2 : List (List Char)) (n1 n2 : ℚ)
    (s : Session) (k : Nat) (w r : Char)
    (hk : s.typedText.length = k)
    (hlt : k + 1 < s.targetText.length)
    (hw : w ≠ s.targetText.getD k ' ')
    (hsup : ¬(w = ' ' ∧ s.typedText = [])) :
    (handle_character fresh2 n2 r
        (handle_backspace (handle_character fresh1 n1 w s))).mistakes ≤
      s.mistakes + 1 ∧
    (handle_character fresh2 n2 r
        (handle_backspace (handle_character fresh1 n1 w s))).mistakePositions =
      insert k s.mistakePositions ∧
    k ∈ (handle_character fresh2 n2 r
        (handle_backspace (handle_character fresh1 n1 w s))).mistakePositions := by
  subst hk
  have h1 := handle_character_mistakes fresh1 n1 w s
    (fun hc => hsup ⟨hc.1, hc.2.1⟩) hlt
  obtain ⟨h1t, h1g, h1wrong, -⟩ := h1
  obtain ⟨h1pos, h1mis⟩ := h1wrong hw
  have hmis1 : (handle_character fresh1 n1 w s).mistakes ≤ s.mistakes + 1 := by
    rw [h1mis]; split_ifs <;> omega
  set s1 := handle_character fresh1 n1 w s with hs1
  have hbs := handle_backspace_dropLast s1
  have h2t : (handle_backspace s1).typedText = s.typedText := by
    rw [hbs]
    show s1.typedText.dropLast = s.typedText
    rw [h1t]
    exact dropLast_append_singleton s.typedText w
  have h2g : (handle_backspace s1).targetText = s.targetText := by
    rw [hbs]; exact h1g
  have h2pos : (handle_backspace s1).mistakePositions =
      insert s.typedText.length s.mistakePositions := by
    rw [hbs]; exact h1pos
  have h2mis : (handle_backspace s1).mistakes ≤ s.mistakes + 1 := by
    rw [hbs]; exact hmis1
  set s2 := handle_backspace s1 with hs2
  by_cases hg : r = ' ' ∧ s2.typedText = [] ∧ s2.targetText ≠ [] ∧
      s2.targetText.headD ' ' ≠ ' '
  · have h3 : handle_character fresh2 n2 r s2 = s2 := by
      unfold handle_character
      rw [if_pos hg]
    rw [h3, h2pos]
    exact ⟨h2mis, rfl, Finset.mem_insert_self _ _⟩
  · have hlt2 : s2.typedText.length + 1 < s2.targetText.length := by
      rw [h2t, h2g]; exact hlt
    have h3 := handle_character_mistakes fresh2 n2 r s2 hg hlt2
    obtain ⟨-, -, h3wrong, h3right⟩ := h3
    by_cases hr : r = s2.targetText.getD s2.typedText.length ' '
    · obtain ⟨h3pos, h3mis⟩ := h3right hr
      rw [h3pos, h3mis, h2pos]
      exact ⟨h2mis, rfl, Finset.mem_insert_self _ _⟩
    · obtain ⟨h3pos, h3mis⟩ := h3wrong hr
      have hkmem : s2.typedText.length ∈ s2.mistakePositions := by
        rw [h2t, h2pos]
        exact Finset.mem_insert_self _ _
      rw [h3pos, h3mis, if_pos hkmem, h2pos, h2t]
      exact ⟨h2mis, Finset.insert_idem _ _, Finset.mem_insert_self _ _⟩

/-- A session on line `"cat"` with `"c"` already typed correctly. -/
def c4Session : Session :=
  { baseSession with
    currentLines := [['c','a','t']],
    targetText := ['c','a','t'],
    typedText := ['c'],
    totalCharsTyped := 1 }

/-- C4 witness: wrong `'x'` at offset 1 of `"cat"`, backspace, correct
retype `'a'`. -/
theorem c4_mistake_dedup_witness :
    (handle_character [] 0 'a'
        (handle_backspace (handle_character [] 0 'x' c4Session))).mistakes ≤
      c4Session.mistakes + 1 ∧
    (handle_character [] 0 'a'
        (handle_backspace (handle_character [] 0 'x' c4Session))).mistakePositions =
      insert 1 c4Session.mistakePositions ∧
    1 ∈ (handle_character [] 0 'a'
        (handle_backspace (handle_character [] 0 'x' c4Session))).mistakePositions :=
  c4_mistake_dedup [] [] 0 0 c4Session 1 'x' 'a'
    (by decide) (by decide) (by decide) (by decide)

/-! ## C8: streak monotonicity -/

theorem track_mistake_streak (s : Session) :
    s.bestStreak ≤ (track_mistake s).bestStreak ∧
    (s.currentStreak ≤ s.bestStreak →
      (track_mistake s).currentStreak ≤ (track_mistake s).bestStreak) := by
  unfold track_mistake mistake_record streak_up
  split_ifs with h1 h2 h3
  · exact ⟨le_refl _, fun _ => Nat.zero_le _⟩
  · exact ⟨le_refl _, fun _ => Nat.zero_le _⟩
  · exact ⟨Nat.le_of_lt h3, fun _ => le_refl _⟩
  · exact ⟨le_refl _, fun _ => by simp at h3 ⊢; omega⟩

theorem pipeline_streak (now : ℚ) (c : Char) (s : Session) :
    s.bestStreak ≤
      (update_live_stats (update_elapsed now (track_mistake (append_char c (timer_start now s))))).bestStreak ∧
    (s.currentStreak ≤ s.bestStreak →
      (update_live_stats (update_elapsed now (track_mistake (append_char c (timer_start now s))))).currentStreak ≤
      (update_live_stats (update_elapsed now (track_mistake (append_char c (timer_start now s))))).bestStreak) := by
  obtain ⟨-, -, -, -, -, -, -, htc, htb, -⟩ := timer_start_frame now s
  obtain ⟨-, -, -, -, -, -, -, hgc, hgb, -⟩ := update_live_stats_frame
    (update_elapsed now (track_mistake (append_char c (timer_start now s))))
  obtain ⟨-, -, -, -, -, -, -, hec, heb, -⟩ := update_elapsed_frame now
    (track_mistake (append_char c (timer_start now s)))
  have hTM := track_mistake_streak (append_char c (timer_start now s))
  have hACc : (append_char c (timer_start now s)).currentStreak = s.currentStreak := htc
  have hACb : (append_char c (timer_start now s)).bestStreak = s.bestStreak := htb
  constructor
  · rw [hgb, heb]
    calc s.bestStreak = (append_char c (timer_start now s)).bestStreak := hACb.symm
      _ ≤ _ := hTM.1
  · intro hinv
    rw [hgb, heb, hgc, hec]
    exact hTM.2 (by rw [hACc, hACb]; exact hinv)

theorem handle_character_streak (fresh : List (List Char)) (now : ℚ) (c : Char)
    (s : Session) :
    s.bestStreak ≤ (handle_character fresh now c s).bestStreak ∧
    (s.currentStreak ≤ s.bestStreak →
      (handle_character fresh now c s).currentStreak ≤
        (handle_character fresh now c s).bestStreak) := by
  obtain ⟨-, -, -, -, -, -, -, htc, htb, -⟩ := timer_start_frame now s
  obtain ⟨-, -, hkc, hkb, -⟩ := check_line_completion_frame fresh now (timer_start now s)
  unfold handle_character
  split_ifs with h1 h2 h3
  · exact ⟨le_refl _, fun h => h⟩
  · rw [hkb, htb, hkc, htc]
    exact ⟨le_refl _, fun h => h⟩
  · rw [hkb, htb, hkc, htc]
    exact ⟨le_refl _, fun h => h⟩
  · obtain ⟨-, -, hkc2, hkb2, -⟩ := check_line_completion_frame fresh now
      (update_live_stats (update_elapsed now (track_mistake (append_char c (timer_start now s)))))
    rw [hkb2, hkc2]
    exact pipeline_streak now c s

/-- Per-event streak facts: within a session's lifetime (no full
reset), `bestStreak` never decreases and `current ≤ best` is preserved. -/
theorem step_streak (e : Ev) (s : Session) (he : sessionEv e) :
    s.bestStreak ≤ (step e s).bestStreak ∧
    (s.currentStreak ≤ s.bestStreak →
      (step e s).currentStreak ≤ (step e s).bestStreak) := by
  cases e with
  | ch c now fresh => exact handle_character_streak fresh now c s
  | bs =>
    show s.bestStreak ≤ (handle_backspace s).bestStreak ∧
      (s.currentStreak ≤ s.bestStreak →
        (handle_backspace s).currentStreak ≤ (handle_backspace s).bestStreak)
    rw [handle_backspace_dropLast s]
    exact ⟨le_refl _, fun h => h⟩
  | tickC now =>
    show s.bestStreak ≤ (update_countdown now s).bestStreak ∧
      (s.currentStreak ≤ s.bestStreak →
        (update_countdown now s).currentStreak ≤ (update_countdown now s).bestStreak)
    unfold update_countdown
    split_ifs with h1 h2
    · obtain ⟨-, -, hcc, hcb, -⟩ := complete_game_frame now (countdown_set now s)
      rw [hcb, hcc]
      exact ⟨le_refl _, fun h => h⟩
    · exact ⟨le_refl _, fun h => h⟩
    · exact ⟨le_refl _, fun h => h⟩
  | tickT now =>
    show s.bestStreak ≤ (update_timer now s).bestStreak ∧
      (s.currentStreak ≤ s.bestStreak →
        (update_timer now s).currentStreak ≤ (update_timer now s).bestStreak)
    unfold update_timer
    split_ifs
    · exact ⟨le_refl _, fun h => h⟩
    · exact ⟨le_refl _, fun h => h⟩
  | cancel => exact ⟨le_refl _, fun h => h⟩
  | reset => exact he.elim

theorem runEvents_streak (evs : List Ev) (s : Session)
    (hsess : ∀ e ∈ evs, sessionEv e)
    (hinv : s.currentStreak ≤ s.bestStreak) :
    (runEvents evs s).currentStreak ≤ (runEvents evs s).bestStreak := by
  induction evs generalizing s with
  | nil => exact hinv
  | cons e rest ih =>
    have h1 := step_streak e s (hsess e (List.mem_cons_self e rest))
    exact ih (step e s) (fun e' he' => hsess e' (List.mem_cons_of_mem e he'))
      (h1.2 hinv)

/-- C8: over one session's lifetime (events after `start_mode`, none of
them the discarding full reset), `bestStreak` is non-decreasing under
every event, and `bestStreak ≥ currentStreak` holds after every run of
events. -/
theorem c8_streak_monotone (mode : Mode) (para : List Char) (s0 : Session)
    (evs : List Ev) (hsess : ∀ e ∈ evs, sessionEv e) :
    (∀ e s, sessionEv e → s.bestStreak ≤ (step e s).bestStreak) ∧
    (runEvents evs (start_mode mode para s0)).currentStreak ≤
      (runEvents evs (start_mode mode para s0)).bestStreak := by
  refine ⟨fun e s he => (step_streak e s he).1, ?_⟩
  exact runEvents_streak evs (start_mode mode para s0) hsess (le_refl 0)

/-- C8 witness: a two-event session (`'T'` typed, then backspace) on
the paragraph `"The cat"`. -/
theorem c8_streak_monotone_witness :
    (∀ e s, sessionEv e → s.bestStreak ≤ (step e s).bestStreak) ∧
    (runEvents [Ev.ch 'T' 0 [], Ev.bs]
        (start_mode Mode.unlimited "The cat".toList baseSession)).currentStreak ≤
      (runEvents [Ev.ch 'T' 0 [], Ev.bs]
        (start_mode Mode.unlimited "The cat".toList baseSession)).bestStreak :=
  c8_streak_monotone Mode.unlimited "The cat".toList baseSession
    [Ev.ch 'T' 0 [], Ev.bs]
    (by intro e he; fin_cases he <;> trivial)

/-! ## C9: metrics bounds -/

/-- The metrics invariant: recorded mistakes never exceed characters
typed, the live WPM is non-negative, and the live and final accuracies
lie in `[0, 100]`. -/
def MetricsInv (s : Session) : Prop :=
  s.mistakes ≤ s.totalCharsTyped ∧
  0 ≤ s.liveWpm ∧
  0 ≤ s.liveAccuracy ∧ s.liveAccuracy ≤ 100 ∧
  0 ≤ s.accuracy ∧ s.accuracy ≤ 100

theorem acc_formula_bounds (chars m : Nat) (h : m ≤ chars) (hc : 0 < chars) :
    0 ≤ (((chars : ℚ) - (m : ℚ)) / (chars : ℚ)) * 100 ∧
    (((chars : ℚ) - (m : ℚ)) / (chars : ℚ)) * 100 ≤ 100 := by
  have hc' : (0 : ℚ) < (chars : ℚ) := by exact_mod_cast hc
  have hm : (m : ℚ) ≤ (chars : ℚ) := by exact_mod_cast h
  constructor
  · apply mul_nonneg _ (by norm_num)
    exact div_nonneg (by linarith) (le_of_lt hc')
  · have h1 : ((chars : ℚ) - (m : ℚ)) / (chars : ℚ) ≤ 1 := by
      rw [div_le_one hc']
      linarith
    calc (((chars : ℚ) - (m : ℚ)) / (chars : ℚ)) * 100 ≤ 1 * 100 :=
          mul_le_mul_of_nonneg_right h1 (by norm_num)
      _ = 100 := by norm_num

theorem live_wpm_set_inv (s : Session) (h : MetricsInv s) :
    MetricsInv (live_wpm_set s) := by
  obtain ⟨h1, h2, h3, h4, h5, h6⟩ := h
  unfold live_wpm_set
  split_ifs with hc
  · refine ⟨h1, ?_, h3, h4, h5, h6⟩
    show (0 : ℚ) ≤ ((s.totalCharsTyped : ℚ) / 5) / (s.elapsedTime / 60)
    exact div_nonneg (by positivity) (le_of_lt hc)
  · exact ⟨h1, h2, h3, h4, h5, h6⟩

theorem live_acc_set_inv (s : Session) (h : MetricsInv s) :
    MetricsInv (live_acc_set s) := by
  obtain ⟨h1, h2, h3, h4, h5, h6⟩ := h
  unfold live_acc_set
  split_ifs with hc
  · obtain ⟨b1, b2⟩ := acc_formula_bounds s.totalCharsTyped s.mistakes h1 hc
    exact ⟨h1, h2, b1, b2, h5, h6⟩
  · exact ⟨h1, h2, h3, h4, h5, h6⟩

theorem update_live_stats_inv (s : Session) (h : MetricsInv s) :
    MetricsInv (update_live_stats s) := by
  unfold update_live_stats
  split_ifs
  · exact live_acc_set_inv _ (live_wpm_set_inv _ h)
  · exact h

theorem update_elapsed_inv (now : ℚ) (s : Session) (h : MetricsInv s) :
    MetricsInv (update_elapsed now s) := by
  unfold update_elapsed
  split_ifs
  · exact h
  · exact h

theorem timer_start_inv (now : ℚ) (s : Session) (h : MetricsInv s) :
    MetricsInv (timer_start now s) := by
  unfold timer_start
  split_ifs
  · exact h
  · exact h

theorem complete_acc_inv (s : Session) (h : MetricsInv s) :
    MetricsInv (complete_acc s) := by
  obtain ⟨h1, h2, h3, h4, h5, h6⟩ := h
  unfold complete_acc
  split_ifs with hc
  · obtain ⟨b1, b2⟩ := acc_formula_bounds s.totalCharsTyped s.mistakes h1 hc
    exact ⟨h1, h2, h3, h4, b1, b2⟩
  · exact ⟨h1, h2, h3, h4, le_refl 0, by norm_num⟩

theorem complete_record_inv (s : Session) (h : MetricsInv s) :
    MetricsInv (complete_record s) := by
  unfold complete_record
  split_ifs
  · exact h
  · exact h

theorem complete_game_inv (now : ℚ) (s : Session) (h : MetricsInv s) :
    MetricsInv (complete_game now s) :=
  complete_acc_inv _ (update_elapsed_inv now _ (complete_record_inv _ h))

theorem check_line_completion_inv (fresh : List (List Char)) (now : ℚ)
    (s : Session) (h : MetricsInv s) :
    MetricsInv (check_line_completion fresh now s) := by
  have hrec : MetricsInv (record_line s) := h
  unfold check_line_completion
  split_ifs
  · exact complete_game_inv now _ hrec
  · exact hrec
  · exact hrec
  · exact complete_game_inv now _ hrec
  · exact hrec
  · exact h

theorem track_mistake_count (s : Session) :
    (track_mistake s).mistakes ≤ s.mistakes + 1 ∧
    (track_mistake s).totalCharsTyped = s.totalCharsTyped := by
  unfold track_mistake mistake_record streak_up
  split_ifs <;> constructor <;> simp

theorem handle_character_inv (fresh : List (List Char)) (now : ℚ) (c : Char)
    (s : Session) (h : MetricsInv s) :
    MetricsInv (handle_character fresh now c s) := by
  unfold handle_character
  split_ifs
  · exact h
  · exact check_line_completion_inv fresh now _ (timer_start_inv now _ h)
  · exact check_line_completion_inv fresh now _ (timer_start_inv now _ h)
  · apply check_line_completion_inv
    apply update_live_stats_inv
    apply update_elapsed_inv
    have hts := timer_start_inv now s h
    obtain ⟨t1, t2, t3, t4, t5, t6⟩ := hts
    have hAC : MetricsInv (append_char c (timer_start now s)) := by
      refine ⟨?_, t2, t3, t4, t5, t6⟩
      show (timer_start now s).mistakes ≤ (timer_start now s).totalCharsTyped + 1
      omega
    obtain ⟨a1, a2, a3, a4, a5, a6⟩ := hAC
    obtain ⟨hm1, hm2⟩ := track_mistake_count (append_char c (timer_start now s))
    obtain ⟨-, -, -, -, -, f6, f7, f8, f9, f10, -⟩ :=
      track_mistake_frame (append_char c (timer_start now s))
    refine ⟨?_, ?_, ?_, ?_, ?_, ?_⟩
    · rw [hm2]
      calc (track_mistake (append_char c (timer_start now s))).mistakes ≤
          (append_char c (timer_start now s)).mistakes + 1 := hm1
        _ ≤ (append_char c (timer_start now s)).totalCharsTyped := by
            show (timer_start now s).mistakes + 1 ≤ (timer_start now s).totalCharsTyped + 1
            omega
    · rw [f6]; exact a2
    · rw [f7]; exact a3
    · rw [f7]; exact a4
    · rw [f8]; exact a5
    · rw [f8]; exact a6

/-- The invariant is preserved by every event, including cancel and the
full reset. -/
theorem step_inv (e : Ev) (s : Session) (h : MetricsInv s) :
    MetricsInv (step e s) := by
  cases e with
  | ch c now fresh => exact handle_character_inv fresh now c s h
  | bs =>
    show MetricsInv (handle_backspace s)
    rw [handle_backspace_dropLast s]
    exact h
  | tickC now =>
    show MetricsInv (update_countdown now s)
    unfold update_countdown
    split_ifs
    · exact complete_game_inv now _ h
    · exact h
    · exact h
  | tickT now =>
    show MetricsInv (update_timer now s)
    unfold update_timer
    split_ifs
    · exact h
    · exact h
  | cancel => exact h
  | reset =>
    exact ⟨Nat.le_refl 0, le_refl 0, le_refl 0, (by norm_num : (0:ℚ) ≤ 100),
      le_refl 0, (by norm_num : (0:ℚ) ≤ 100)⟩

theorem runEvents_inv (evs : List Ev) (s : Session) (h : MetricsInv s) :
    MetricsInv (runEvents evs s) := by
  induction evs generalizing s with
  | nil => exact h
  | cons e rest ih => exact ih (step e s) (step_inv e s h)

theorem start_mode_inv (mode : Mode) (para : List Char) (s : Session) :
    MetricsInv (start_mode mode para s) :=
  ⟨Nat.le_refl 0, le_refl 0, le_refl 0, (by norm_num : (0:ℚ) ≤ 100),
   le_refl 0, (by norm_num : (0:ℚ) ≤ 100)⟩

theorem pyTrunc_nonneg (q : ℚ) (h : 0 ≤ q) : 0 ≤ pyTrunc q := by
  unfold pyTrunc
  rw [if_pos h]
  exact Rat.le_floor.mpr (by exact_mod_cast h)

theorem wpm_words_nonneg (m : Option Mode) (c : Nat) (e : ℚ) :
    0 ≤ (wpm_words_minutes m c e).1 := by
  rcases m with - | mode
  · show (0:ℚ) ≤ (c : ℚ) / 5
    positivity
  · cases mode with
    | sec30 =>
      show (0:ℚ) ≤ (c : ℚ) / 5
      positivity
    | word30 =>
      show (0:ℚ) ≤ 30
      norm_num
    | unlimited =>
      show (0:ℚ) ≤ (c : ℚ) / 5
      positivity

theorem final_wpm_nonneg (m : Option Mode) (c : Nat) (e : ℚ) :
    0 ≤ final_wpm m c e := by
  unfold final_wpm
  split_ifs with h
  · exact pyTrunc_nonneg _ (div_nonneg (wpm_words_nonneg m c e) (le_of_lt h))
  · exact le_refl (0 : ℤ)

/-- C9: the invariant `totalMistakes ≤ totalCharsTyped` together with
the live/final metric bounds (`liveWpm ≥ 0`, live and final accuracy in
`[0, 100]`) is preserved by every input event, backspace, tick, cancel
and reset, holds in every state reached from a fresh session, and the
final WPM is non-negative for every mode, character count and elapsed
time. -/
theorem c9_metrics_bounds (mode : Mode) (para : List Char) (s0 : Session)
    (evs : List Ev) :
    (∀ e s, MetricsInv s → MetricsInv (step e s)) ∧
    MetricsInv (runEvents evs (start_mode mode para s0)) ∧
    (∀ (m : Option Mode) (c : Nat) (e : ℚ), 0 ≤ final_wpm m c e) :=
  ⟨fun e s h => step_inv e s h,
   runEvents_inv evs _ (start_mode_inv mode para s0),
   fun m c e => final_wpm_nonneg m c e⟩

/-- C9 witness: the preservation conjunct applied to a backspace on the
base session, and the reachability conjunct on a concrete two-event
run. -/
theorem c9_metrics_bounds_witness :
    MetricsInv (step Ev.bs baseSession) ∧
    MetricsInv (runEvents [Ev.ch 'a' 0 [], Ev.bs]
      (start_mode Mode.sec30 "ab cd".toList baseSession)) :=
  ⟨(c9_metrics_bounds Mode.sec30 "ab cd".toList baseSession
        [Ev.ch 'a' 0 []]).1 Ev.bs baseSession
      ⟨Nat.le_refl 0, le_refl 0, le_refl 0, (by norm_num : (0:ℚ) ≤ 100),
       le_refl 0, (by norm_num : (0:ℚ) ≤ 100)⟩,
   (c9_metrics_bounds Mode.sec30 "ab cd".toList baseSession
      [Ev.ch 'a' 0 [], Ev.bs]).2.1⟩

end TypingGame
